import Mathlib

/-!
Verification development for the ladder-legends-uploader agent
(`src/src-tauri/src`).  Rust code is shallowly embedded: `HashMap`s become
association lists, shared mutable state becomes explicit state passing,
fallible operations return `Except String`, and all I/O (filesystem,
HTTP) is abstracted into explicit environment records whose results are
threaded through the pure control flow copied from the source.
-/

namespace LadderLegends

/-! ## Generic string helpers

`Rust str::contains` (substring search) and `eq_ignore_ascii_case`,
modelled over `List Char`. -/

/-- Does `n` occur at the start of `h`? -/
def charsStartWith : List Char → List Char → Bool
  | [], _ => true
  | _ :: _, [] => false
  | a :: as, b :: bs => a == b && charsStartWith as bs

/-- Does `n` occur somewhere inside `h`? -/
def charsContain (n : List Char) : List Char → Bool
  | [] => n.isEmpty
  | c :: t => charsStartWith n (c :: t) || charsContain n t

/-- `haystack.contains(needle)` from Rust `str::contains`. -/
def strContains (haystack needle : String) : Bool :=
  charsContain needle.data haystack.data

/-- ASCII lower-casing of one character. -/
def asciiLower (c : Char) : Char :=
  if 'A' ≤ c ∧ c ≤ 'Z' then Char.ofNat (c.toNat + 32) else c

/-- Rust `str::eq_ignore_ascii_case`. -/
def strEqIgnoreAsciiCase (a b : String) : Bool :=
  a.data.map asciiLower == b.data.map asciiLower

/-! ## Association lists standing in for `HashMap`

Only the operations the sources use.  Iteration order of a Rust
`HashMap` is unspecified; the list keeps entries in first-insertion
order, which is one admissible refinement (remarks are made where a
claim could be sensitive to the order). -/

/-- `map.contains_key(k)`. -/
def alContains [BEq κ] (k : κ) (m : List (κ × α)) : Bool :=
  m.any fun e => e.1 == k

/-- `map.get(k)` (first matching entry). -/
def alGet [BEq κ] (k : κ) : List (κ × α) → Option α
  | [] => none
  | (k', v) :: t => if k' == k then some v else alGet k t

/-- `map.insert(k, v)`: replace an existing entry, else append. -/
def alInsert [BEq κ] (k : κ) (v : α) : List (κ × α) → List (κ × α)
  | [] => [(k, v)]
  | (k', v') :: t => if k' == k then (k, v) :: t else (k', v') :: alInsert k v t

/-! ## Stable sorting

The Rust `sort_by` is a stable sort.  The sources only ever sort
descending by a `Nat` key (`sort_by(|a, b| b.key.cmp(&a.key))`) or
ascending by a pair of strings; both are modelled with a stable
insertion sort: an element is inserted after every element that does not
compare strictly below it, exactly preserving the relative order of
ties. -/

/-- Insert `x` into a descending-by-`k` list, after all ties. -/
def insDesc (k : α → Nat) (x : α) : List α → List α
  | [] => [x]
  | y :: ys => if k y < k x then x :: y :: ys else y :: insDesc k x ys

/-- Stable sort, descending by the `Nat` key `k`. -/
def sortByKeyDesc (k : α → Nat) (l : List α) : List α :=
  l.foldl (fun acc x => insDesc k x acc) []

/-! ## Replay tracker (`replay_tracker.rs`) -/

/-- `TrackedReplay` (replay_tracker.rs:70). -/
structure TrackedReplay where
  hash : String
  filename : String
  filesize : Nat
  uploaded_at : Nat
  filepath : String
  deriving Repr, DecidableEq

/-- `ReplayTracker` (replay_tracker.rs:85): `replays` is a
`HashMap<String, TrackedReplay>` modelled as an association list. -/
structure ReplayTracker where
  replays : List (String × TrackedReplay)
  total_uploaded : Nat
  manifest_version : String
  deriving Repr, DecidableEq

namespace ReplayTracker

/-- `ReplayTracker::new` (replay_tracker.rs:98). -/
def new : ReplayTracker :=
  { replays := [], total_uploaded := 0, manifest_version := "" }

/-- `ReplayTracker::clear` (replay_tracker.rs:110): empties the map and
zeroes the counter; `manifest_version` is left untouched. -/
def clear (t : ReplayTracker) : ReplayTracker :=
  { t with replays := [], total_uploaded := 0 }

/-- `ReplayTracker::is_uploaded` (replay_tracker.rs:140). -/
def is_uploaded (t : ReplayTracker) (hash : String) : Bool :=
  alContains hash t.replays

/-- `ReplayTracker::exists_by_metadata` (replay_tracker.rs:145). -/
def exists_by_metadata (t : ReplayTracker) (filename : String) (filesize : Nat) : Bool :=
  t.replays.any fun e => e.2.filename == filename && e.2.filesize == filesize

/-- `ReplayTracker::add_replay` (replay_tracker.rs:150): insert only
when the hash is absent, then set `total_uploaded` to the map size. -/
def add_replay (t : ReplayTracker) (replay : TrackedReplay) : ReplayTracker :=
  if alContains replay.hash t.replays then t
  else
    let replays' := alInsert replay.hash replay t.replays
    { t with replays := replays', total_uploaded := replays'.length }

/-- `ReplayTracker::get_by_hash` (replay_tracker.rs:165). -/
def get_by_hash (t : ReplayTracker) (hash : String) : Option TrackedReplay :=
  alGet hash t.replays

end ReplayTracker

/-- The documented tracker invariant: the counter equals the map size. -/
def trackerInv (t : ReplayTracker) : Prop :=
  t.total_uploaded = t.replays.length

/-! ## `manifest_version` deserialization (replay_tracker.rs:10-66)

The serde visitor accepts a JSON string or a JSON integer and is
reached through `deserialize_any`; a scalar JSON value for the field is
modelled by `ManifestJson`.  `visit_u64` and `visit_i64` both map every
integer (zero or not) to the empty string; any other JSON shape is a
deserialization error. -/

/-- A JSON value found at the `manifest_version` key. -/
inductive ManifestJson where
  | jstr (s : String)
  | jint (n : Int)
  | jother
  deriving Repr, DecidableEq

/-- `deserialize_manifest_version` (replay_tracker.rs:10): strings pass
through, integers (signed or unsigned, any value) normalize to `""`,
anything else is an error from the `expecting` message of the visitor. -/
def deserialize_manifest_version : ManifestJson → Except String String
  | .jstr s => .ok s
  | .jint _ => .ok ""
  | .jother => .error "a string or integer for manifest_version"

/-- The `#[serde(default, deserialize_with = ...)]` field
(replay_tracker.rs:92): a missing field takes `String::default()`. -/
def parseManifestField : Option ManifestJson → Except String String
  | none => .ok ""
  | some v => deserialize_manifest_version v

/-- A parseable persisted tracker document (`replays.json`): the
`replays` and `total_uploaded` fields as serde reads them, plus the raw
`manifest_version` value when the key is present. -/
structure TrackerDoc where
  replays : List (String × TrackedReplay)
  total_uploaded : Nat
  manifest_version_raw : Option ManifestJson
  deriving Repr

/-- Deserializing a whole tracker document: each field is taken
verbatim; only `manifest_version` goes through the custom visitor.
`load_from_path` (replay_tracker.rs:179) returns exactly this value for
a file that parses. -/
def loadTrackerDoc (doc : TrackerDoc) : Except String ReplayTracker := do
  let version ← parseManifestField doc.manifest_version_raw
  pure { replays := doc.replays
         total_uploaded := doc.total_uploaded
         manifest_version := version }

/-! ## Folder scan (`replay_tracker.rs:247` `scan_replay_folder`)

A directory listing is a list of entries; `Path::extension()` is the
portion of the file name after its final `.`, where a dot in leading
position does not count (so `"game"` and `".SC2Replay"` have no
extension). -/

/-- One entry of `fs::read_dir`. -/
structure DirEntry where
  path : String
  filename : String
  is_file : Bool
  filesize : Nat
  modified_time : Nat
  deriving Repr, DecidableEq

/-- Characters after the last `.` of a list, if any. -/
def afterLastDot : List Char → Option (List Char)
  | [] => none
  | '.' :: t =>
    match afterLastDot t with
    | some r => some r
    | none => some t
  | _ :: t => afterLastDot t

/-- Rust `Path::extension()` on a bare file name: the text after the
final `.`, never counting a dot in the very first position. -/
def pathExtension (filename : String) : Option String :=
  match filename.data with
  | [] => none
  | _ :: t => (afterLastDot t).map fun cs => ⟨cs⟩

/-- `ReplayFileInfo` (replay_tracker.rs:239). -/
structure ReplayFileInfo where
  path : String
  filename : String
  filesize : Nat
  modified_time : Nat
  deriving Repr, DecidableEq

/-- The per-entry filter of `scan_replay_folder` (replay_tracker.rs:261):
the loop `continue`s unless the entry is a file whose extension equals
`"SC2Replay"` — an exact `OsStr` comparison, hence case-sensitive. -/
def scanRetains (e : DirEntry) : Bool :=
  e.is_file && pathExtension e.filename == some "SC2Replay"

/-- `scan_replay_folder` (replay_tracker.rs:247) on a directory that
exists: keep the retained entries, then sort by modified time newest
first (replay_tracker.rs:286). -/
def scan_replay_folder (entries : List DirEntry) : List ReplayFileInfo :=
  let replays := entries.filter scanRetains |>.map fun e =>
    { path := e.path, filename := e.filename
      filesize := e.filesize, modified_time := e.modified_time }
  sortByKeyDesc (fun r => r.modified_time) replays

/-! ## Replay parser (`replay_parser.rs`) -/

/-- `GameType` (replay_parser.rs:6). -/
inductive GameType where
  | Ladder1v1 | Unranked1v1 | Private1v1 | Obs1v1 | VsAI1v1
  | Ladder2v2 | Unranked2v2 | Private2v2 | Obs2v2
  | TeamGame | Arcade | Practice | Other
  deriving Repr, DecidableEq

/-- `GameType::as_str` (replay_parser.rs:39). -/
def GameType.as_str : GameType → String
  | .Ladder1v1 => "1v1-ladder"
  | .Unranked1v1 => "1v1-unranked"
  | .Private1v1 => "1v1-private"
  | .Obs1v1 => "1v1-obs"
  | .VsAI1v1 => "1vAI"
  | .Ladder2v2 => "2v2-ladder"
  | .Unranked2v2 => "2v2-unranked"
  | .Private2v2 => "2v2-private"
  | .Obs2v2 => "2v2-obs"
  | .TeamGame => "team-game"
  | .Arcade => "arcade"
  | .Practice => "practice"
  | .Other => "other"

/-- `GameType::should_upload` (replay_parser.rs:58). -/
def GameType.should_upload : GameType → Bool
  | .Ladder1v1 | .Unranked1v1 | .Private1v1 | .Obs1v1
  | .Ladder2v2 | .Unranked2v2 | .Private2v2 | .Obs2v2 => true
  | _ => false

/-- `classify_game_type` (replay_parser.rs:144).  The Rust indexing
`team_sizes.len() == 2 && team_sizes[0] == 1 && team_sizes[1] == 1`
is rendered with `getD`; the guard on the length keeps the default
unreachable, exactly as the short-circuit `&&` guards the indexing. -/
def classify_game_type (team_sizes : List Nat) (total_humans observers ai_count : Nat)
    (amm competitive practice : Bool) : GameType :=
  if practice then .Practice
  else if team_sizes.length = 2 ∧ team_sizes.getD 0 0 = 1 ∧ team_sizes.getD 1 0 = 1 then
    if observers > 0 then .Obs1v1
    else if ai_count > 0 then .VsAI1v1
    else if amm then (if competitive then .Ladder1v1 else .Unranked1v1)
    else .Private1v1
  else if team_sizes.length = 1 ∧ team_sizes.getD 0 0 = 1 ∧ ai_count > 0 then .VsAI1v1
  else if team_sizes.length = 2 ∧ team_sizes.getD 0 0 = 2 ∧ team_sizes.getD 1 0 = 2 then
    if observers > 0 then .Obs2v2
    else if amm then (if competitive then .Ladder2v2 else .Unranked2v2)
    else .Private2v2
  else if team_sizes.length = 2 ∧ total_humans ≥ 6 then .TeamGame
  else if !amm && !practice && total_humans > 0 then .Arcade
  else .Other

/-- The classification of the seven ordered steps of the claim, written from
the words of the spec (§4.2): the step-4 phrase "same branching as 1v1 for the 2v2
variants" branches among the four existing 2v2 variants (observers,
then amm ∧ competitive, then amm, else private).  The human count is
derived from the team sizes, as the input tuple of the claim has no separate
total. -/
def spec_classify (team_sizes : List Nat) (observers ai_count : Nat)
    (amm competitive practice : Bool) : GameType :=
  let humans := team_sizes.sum
  if practice then .Practice
  else if team_sizes = [1, 1] then
    if observers > 0 then .Obs1v1
    else if ai_count > 0 then .VsAI1v1
    else if amm && competitive then .Ladder1v1
    else if amm then .Unranked1v1
    else .Private1v1
  else if team_sizes = [1] ∧ ai_count > 0 then .VsAI1v1
  else if team_sizes = [2, 2] then
    if observers > 0 then .Obs2v2
    else if amm && competitive then .Ladder2v2
    else if amm then .Unranked2v2
    else .Private2v2
  else if team_sizes.length = 2 ∧ humans ≥ 6 then .TeamGame
  else if !amm && !practice && humans > 0 then .Arcade
  else .Other

/-! ## Player identity inference (`upload_manager.rs:78`
`detect_user_player_names`)

Frequencies and co-occurrences accumulate in a `HashMap`; the map is
modelled as an association list in first-insertion order (the Rust
iteration order is unspecified — remarks in the theorems note where
that matters).  The floating comparison
`co_occurrence_count as f64 / frequency as f64 > 0.5` is the exact
rational test `2 * count > frequency`: both sides are small integers,
far outside the range where the one f64 rounding of the quotient could
cross `0.5`. -/

/-- `PlayerStats` (upload_manager.rs:57). -/
structure PlayerStats where
  name : String
  frequency : Nat
  co_occurrences : List (String × Nat)
  deriving Repr, DecidableEq

/-- `.entry(name).or_insert(default)` then apply `f` to the entry. -/
def alUpdate [BEq κ] (k : κ) (dflt : α) (f : α → α) : List (κ × α) → List (κ × α)
  | [] => [(k, f dflt)]
  | (k', v) :: t => if k' == k then (k, f v) :: t else (k', v) :: alUpdate k dflt f t

/-- The frequency update loop body (upload_manager.rs:98): bump the
frequency of each active player, creating the entry on first sight. -/
def bumpFrequencies (stats : List (String × PlayerStats)) (active : List String) :
    List (String × PlayerStats) :=
  active.foldl
    (fun st p =>
      alUpdate p { name := p, frequency := 0, co_occurrences := [] }
        (fun s => { s with frequency := s.frequency + 1 }) st)
    stats

/-- The co-occurrence update (upload_manager.rs:109): for every ordered
pair `i ≠ j` of positions, count `active[j]` against `active[i]`. -/
def bumpCoOccurrences (stats : List (String × PlayerStats)) (active : List String) :
    List (String × PlayerStats) :=
  (List.range active.length).foldl
    (fun st i =>
      (List.range active.length).foldl
        (fun st' j =>
          if i ≠ j then
            let player := active.getD i ""
            let other := active.getD j ""
            alUpdate player { name := player, frequency := 0, co_occurrences := [] }
              (fun s =>
                { s with co_occurrences :=
                    alUpdate other 0 (fun c => c + 1) s.co_occurrences })
              st'
          else st')
        st)
    stats

/-- The contribution of one replay to the stats map (upload_manager.rs:86):
drop observers, skip the replay when no active player remains, then
update frequencies and co-occurrences. -/
def accumReplay (stats : List (String × PlayerStats))
    (players : List (String × Bool)) : List (String × PlayerStats) :=
  let active := (players.filter fun p => !p.2).map fun p => p.1
  if active.isEmpty then stats
  else bumpCoOccurrences (bumpFrequencies stats active) active

/-- The AI literals (upload_manager.rs:135). -/
def AI_PLAYER_NAMES : List String := ["Computer", "A.I.", "AI", "Bot"]

/-- The co-occurrence test of the candidate loop
(upload_manager.rs:154): reject when some player earlier in the sorted
list co-occurs in strictly more than half of the games of this player. -/
def passesCoOccurrence (player : PlayerStats) (earlier : List PlayerStats) : Bool :=
  earlier.all fun hp =>
    match alGet hp.name player.co_occurrences with
    | some c => !(2 * c > player.frequency)
    | none => true

/-- The candidate loop (upload_manager.rs:145): walk the sorted list,
keeping players with frequency above one that pass the co-occurrence
test against every earlier entry. -/
def candidateLoop (earlier : List PlayerStats) : List PlayerStats → List String
  | [] => []
  | p :: rest =>
    if p.frequency > 1 && passesCoOccurrence p earlier then
      p.name :: candidateLoop (earlier ++ [p]) rest
    else
      candidateLoop (earlier ++ [p]) rest

/-- The sorted, AI-filtered stats list built by
`detect_user_player_names` before its candidate loop: frequencies
descending (stable over first-insertion order), then the AI `retain`. -/
def sortedNonAI (replays : List (String × List (String × Bool))) : List PlayerStats :=
  let stats := replays.foldl (fun st r => accumReplay st r.2) []
  let sorted := sortByKeyDesc (fun s => s.frequency) (stats.map fun e => e.2)
  sorted.filter fun p => !(AI_PLAYER_NAMES.any fun ai => strEqIgnoreAsciiCase p.name ai)

/-- `detect_user_player_names` (upload_manager.rs:78). -/
def detect_user_player_names (replays : List (String × List (String × Bool))) :
    List String :=
  if replays.isEmpty then []
  else candidateLoop [] (sortedNonAI replays)

/-- The emission rule in the words of the claim: a sorted non-AI name is
emitted when its frequency exceeds one and its co-occurrence rate with
every STRICTLY-higher-frequency name is at most one half — co-occurrence
with an equal-frequency name never suppresses it. -/
def claimPasses (sorted : List PlayerStats) (player : PlayerStats) : Bool :=
  player.frequency > 1 &&
    (sorted.all fun hp =>
      if hp.frequency > player.frequency then
        match alGet hp.name player.co_occurrences with
        | some c => !(2 * c > player.frequency)
        | none => true
      else true)

/-- The inference as the claim describes it, over the same sorted list. -/
def claim_detect_user_player_names (replays : List (String × List (String × Bool))) :
    List String :=
  if replays.isEmpty then []
  else
    let sorted := sortedNonAI replays
    (sorted.filter (claimPasses sorted)).map fun p => p.name

/-! ## Robust file watcher (`file_watcher.rs`)

The three producer tasks and the single consumer communicate through a
bounded channel and the shared `processed_files` set.  State is made
explicit: `channel` is the queue contents in FIFO order, `processed`
the contents of `processed_files`, and `callbacks` the sequence of
paths handed to the user callback.  Time (settle delay, file age) is
abstracted: whether a polled file is recent enough and whether a path
still exists after the settle delay come from predicates supplied by
the scenario. -/

/-- `is_sc2_replay` (file_watcher.rs:58): extension matches
`"SC2Replay"` ASCII-case-insensitively. -/
def is_sc2_replay (path : String) : Bool :=
  match pathExtension path with
  | some ext => strEqIgnoreAsciiCase ext "SC2Replay"
  | none => false

/-- The shared state of the watcher. -/
structure WatcherState where
  processed : List String
  channel : List String
  callbacks : List String
  deriving Repr, DecidableEq

/-- The state before any event: empty set, empty channel, no callback
invocations. -/
def WatcherState.init : WatcherState :=
  { processed := [], channel := [], callbacks := [] }

/-- How the native watcher handles of one create/modify event path
(file_watcher.rs:247): if it is a replay file, forward it through the
channel; `processed_files` is not consulted. -/
def nativeEvent (s : WatcherState) (path : String) : WatcherState :=
  if is_sc2_replay path then { s with channel := s.channel ++ [path] } else s

/-- The heartbeat recovery scan (file_watcher.rs:340): every path the
poll of the folders finds is pushed through the channel, without
consulting `processed_files`. -/
def heartbeatRecovery (s : WatcherState) (found : List String) : WatcherState :=
  { s with channel := s.channel ++ found }

/-- How the polling fallback handles of one found path
(file_watcher.rs:391): skip it when already in `processed_files`;
otherwise, when its modification time is recent enough, INSERT IT INTO
`processed_files` and then send it through the channel. -/
def pollFound (recent : String → Bool) (s : WatcherState) (path : String) :
    WatcherState :=
  if s.processed.contains path then s
  else if recent path then
    { s with processed := path :: s.processed, channel := s.channel ++ [path] }
  else s

/-- How the event processor handles of one received path
(file_watcher.rs:444): skip when already in `processed_files`, else
insert it, wait the settle delay, drop the path when it no longer
exists, otherwise invoke the user callback. -/
def processOne (stillExists : String → Bool) (s : WatcherState) (path : String) :
    WatcherState :=
  if s.processed.contains path then s
  else
    let s' := { s with processed := path :: s.processed }
    if stillExists path then { s' with callbacks := s'.callbacks ++ [path] } else s'

/-- Run the event processor over everything currently in the channel,
in FIFO order. -/
def drainChannel (stillExists : String → Bool) (s : WatcherState) : WatcherState :=
  s.channel.foldl (processOne stillExists) { s with channel := [] }

/-! ## Upload grouping (`upload_manager.rs:22`
`group_replays_by_type_and_player`) -/

/-- `ReplayGroup` (upload_manager.rs:14). -/
structure ReplayGroup where
  game_type : String
  player_name : String
  hashes : List String
  deriving Repr, DecidableEq

/-- Ascending stable insertion: `x` goes before the first element it
compares strictly below. -/
def insAscBy (lt : α → α → Bool) (x : α) : List α → List α
  | [] => [x]
  | y :: ys => if lt x y then x :: y :: ys else y :: insAscBy lt x ys

/-- Stable ascending sort by `lt`. -/
def sortAscBy (lt : α → α → Bool) (l : List α) : List α :=
  l.foldl (fun acc x => insAscBy lt x acc) []

/-- The group comparison (upload_manager.rs:45): game type first, then
player name. -/
def groupLt (a b : ReplayGroup) : Bool :=
  decide (a.game_type < b.game_type) ||
    (a.game_type == b.game_type && decide (a.player_name < b.player_name))

/-- `group_replays_by_type_and_player` (upload_manager.rs:22): bucket
the hashes that resolve in the replay map by `(game_type, player_name)`
(buckets kept in first-insertion order standing in for the `HashMap`),
then sort the groups; group keys are pairwise distinct, so the sorted
order does not depend on the bucket order. -/
def group_replays_by_type_and_player (hashes : List String)
    (replay_map : List (String × (ReplayFileInfo × String × String))) :
    List ReplayGroup :=
  let buckets : List ((String × String) × List String) :=
    hashes.foldl
      (fun acc hash =>
        match alGet hash replay_map with
        | some (_, game_type, player_name) =>
          alUpdate (game_type, player_name) [] (fun l => l ++ [hash]) acc
        | none => acc)
      []
  sortAscBy groupLt (buckets.map fun b =>
    { game_type := b.1.1, player_name := b.1.2, hashes := b.2 })

/-! ## Upload executor (`services/upload_executor.rs`) -/

/-- `PreparedReplay` (services/replay_scanner.rs:17). -/
structure PreparedReplay where
  hash : String
  file_info : ReplayFileInfo
  game_type : String
  player_name : String
  deriving Repr, DecidableEq

/-- `UploadStatus` (upload_manager.rs:177). -/
inductive UploadStatus where
  | Pending (filename : String)
  | Uploading (filename : String)
  | Completed (filename : String)
  | Failed (filename : String) (error : String)
  deriving Repr, DecidableEq

/-- The reachable mutable state of the executor: the shared tracker, the
manager-state fields it touches, and the running upload count. -/
structure ExecState where
  tracker : ReplayTracker
  total_uploaded : Nat
  pending_count : Nat
  current_upload : Option UploadStatus
  uploaded_count : Nat
  deriving Repr, DecidableEq

/-- The environment of one executor run: the outcome the server gives
each upload request (by path and region), and the current time used for
`uploaded_at`. -/
structure ExecEnv where
  upload : String → Option String → Except String Unit
  now : Nat

/-- `extract_region_from_path` (services/upload_executor.rs:324); path
components are the `/`-separated pieces. -/
def extract_region_from_path (path : String) : Option String :=
  (path.splitOn "/").findSome? fun name =>
    if name.startsWith "1-S2-" || name.startsWith "1-" then some "NA"
    else if name.startsWith "2-S2-" || name.startsWith "2-" then some "EU"
    else if name.startsWith "3-S2-" || name.startsWith "3-" then some "KR"
    else if name.startsWith "5-S2-" || name.startsWith "5-" then some "CN"
    else none

/-- The duplicate test of `upload_single_replay`
(services/upload_executor.rs:237): the error mentions `409`,
`REPLAY_DUPLICATE`, or "already been uploaded". -/
def is_duplicate_error (e : String) : Bool :=
  strContains e "409" || strContains e "REPLAY_DUPLICATE" ||
    strContains e "already been uploaded"

/-- `handle_upload_success` (services/upload_executor.rs:254): add the
tracked replay, persist (the I/O of the atomic save is elided), then mirror
the tracker counter into the state, mark `Completed`, and decrement the
pending count (saturating). -/
def handle_upload_success (now : Nat) (prepared : PreparedReplay) (hash : String)
    (st : ExecState) : ExecState :=
  let tracked : TrackedReplay :=
    { hash := hash
      filename := prepared.file_info.filename
      filesize := prepared.file_info.filesize
      uploaded_at := now
      filepath := prepared.file_info.path }
  let tracker' := st.tracker.add_replay tracked
  { st with
    tracker := tracker'
    total_uploaded := tracker'.total_uploaded
    current_upload := some (.Completed prepared.file_info.filename)
    pending_count := st.pending_count - 1 }

/-- `handle_upload_failure` (services/upload_executor.rs:291): record
the failure and decrement pending (the `upload-error` event is
elided). -/
def handle_upload_failure (filename error : String) (st : ExecState) : ExecState :=
  { st with
    current_upload := some (.Failed filename error)
    pending_count := st.pending_count - 1 }

/-- `upload_single_replay` (services/upload_executor.rs:187): set
`Uploading`, derive the region from the path, call the server; a
success — or a failure whose error is a duplicate — goes through
`handle_upload_success` with no error; any other failure goes through
`handle_upload_failure` and surfaces the error.  The returned pair is
the state after the call plus the surfaced error, if any. -/
def upload_single_replay (env : ExecEnv) (prepared : PreparedReplay) (hash : String)
    (st : ExecState) : ExecState × Option String :=
  let st := { st with current_upload := some (.Uploading prepared.file_info.filename) }
  let region := extract_region_from_path prepared.file_info.path
  match env.upload prepared.file_info.path region with
  | .ok _ => (handle_upload_success env.now prepared hash st, none)
  | .error e =>
    if is_duplicate_error e then
      (handle_upload_success env.now prepared hash st, none)
    else
      (handle_upload_failure prepared.file_info.filename e st,
        some ("Failed to upload " ++ prepared.file_info.filename ++ ": " ++ e))

/-- The per-group hash loop of `execute`
(services/upload_executor.rs:113): hashes missing from the replay map
are skipped; a successful (or duplicate) upload bumps the count and the
loop continues; the first surfaced error aborts. -/
def execHashes (env : ExecEnv) (replay_map : List (String × PreparedReplay))
    (st : ExecState) : List String → ExecState × Option String
  | [] => (st, none)
  | hash :: rest =>
    match alGet hash replay_map with
    | none => execHashes env replay_map st rest
    | some prepared =>
      match upload_single_replay env prepared hash st with
      | (st', none) =>
        execHashes env replay_map
          { st' with uploaded_count := st'.uploaded_count + 1 } rest
      | (st', some e) => (st', some e)

/-- The group loop of `execute` (services/upload_executor.rs:96);
after the last group the current upload status is cleared. -/
def execGroups (env : ExecEnv) (replay_map : List (String × PreparedReplay))
    (st : ExecState) : List ReplayGroup → ExecState × Option String
  | [] => ({ st with current_upload := none }, none)
  | g :: rest =>
    match execHashes env replay_map st g.hashes with
    | (st', none) => execGroups env replay_map st' rest
    | (st', some e) => (st', some e)

/-- `UploadExecutor::execute` (services/upload_executor.rs:50). -/
def execute (env : ExecEnv) (prepared : List PreparedReplay) (st : ExecState) :
    ExecState × Option String :=
  if prepared.isEmpty then (st, none)
  else
    let hashes := prepared.map fun r => r.hash
    let tuple_map := prepared.map fun r =>
      (r.hash, (r.file_info, r.game_type, r.player_name))
    let replay_map := prepared.map fun r => (r.hash, r)
    let groups := group_replays_by_type_and_player hashes tuple_map
    execGroups env replay_map { st with pending_count := prepared.length } groups

/-! ## Upload manager `scan_and_upload` (`upload_manager.rs:231`)

The HTTP and filesystem effects are abstracted into
`ScanEnv`: each call site in the source body reads its outcome from the
environment, and every network request appends to an explicit trace.
Event emission and the manager-state mutex updates are elided (the
claims about this function concern its result and its network calls). -/

/-- The network requests `scan_and_upload` can issue. -/
inductive NetworkCall where
  | settingsFetch
  | hashCheck
  | upload (path : String)
  deriving Repr, DecidableEq

/-- `UserSettings` (api_contracts.rs:217): confirmed names plus a map
from possible name to count. -/
structure UserSettings where
  confirmed_player_names : List String
  possible_player_names : List (String × Nat)
  deriving Repr

/-- `HashInfo` (api_contracts.rs:31). -/
structure HashInfo where
  hash : String
  filename : String
  filesize : Nat
  deriving Repr, DecidableEq

/-- `CheckHashesResponse` (api_contracts.rs:39). -/
structure CheckHashesResponse where
  new_hashes : List String
  existing_count : Nat
  deriving Repr

/-- Outcomes of all the I/O `scan_and_upload` performs: the settings
fetch, the folder scan, per-file parsing and hashing, the server hash
check, and the per-file upload. -/
structure ScanEnv where
  settings : Except String UserSettings
  scan : Except String (List ReplayFileInfo)
  game_type_of : ReplayFileInfo → Except String GameType
  players_of : ReplayFileInfo → Except String (List (String × Bool))
  hash_of : ReplayFileInfo → String
  check_hashes : List HashInfo → Except String CheckHashesResponse
  upload : String → Except String Unit
  now : Nat

/-- Step 1.5 of `scan_and_upload` (upload_manager.rs:281): collect
`(path, players)` for every replay that parses, in order. -/
def collectPlayerData (env : ScanEnv) (recent : List ReplayFileInfo) :
    List (String × List (String × Bool)) :=
  recent.foldl
    (fun acc ri =>
      match env.players_of ri with
      | .ok players => acc ++ [(ri.path, players)]
      | .error _ => acc)
    []

/-- Step 2 of `scan_and_upload` (upload_manager.rs:312): the per-file
filter chain — game type parses and is uploadable, one of the names of the
user is an active player, not in the tracker by metadata, hash not in
the tracker — accumulating `hash_infos` in order and the hash-keyed
replay map. -/
def filterAndHash (env : ScanEnv) (tracker : ReplayTracker) (names : List String)
    (recent : List ReplayFileInfo) :
    List HashInfo × List (String × (ReplayFileInfo × String × String)) :=
  recent.foldl
    (fun acc ri =>
      match env.game_type_of ri with
      | .error _ => acc
      | .ok game_type =>
        if !game_type.should_upload then acc
        else
          match env.players_of ri with
          | .error _ => acc
          | .ok players =>
            match players.find? fun p => !p.2 && names.contains p.1 with
            | none => acc
            | some p =>
              if tracker.exists_by_metadata ri.filename ri.filesize then acc
              else
                let hash := env.hash_of ri
                if tracker.is_uploaded hash then acc
                else
                  (acc.1 ++ [{ hash := hash, filename := ri.filename
                               filesize := ri.filesize }],
                   alInsert hash (ri, game_type.as_str, p.1) acc.2))
    ([], [])

/-- Accumulator of the upload loops of the manager. -/
structure UpState where
  calls : List NetworkCall
  tracker : ReplayTracker
  count : Nat
  err : Option String
  deriving Repr

/-- The inner hash loop of the manager (upload_manager.rs:447): hashes
missing from the map are skipped; a successful upload adds the tracked
replay (save I/O elided) and bumps the count; a failure stops with the
error (note: this loop, unlike the one in the executor, has no duplicate-error
handling). -/
def uploadHashes (env : ScanEnv)
    (replay_map : List (String × (ReplayFileInfo × String × String)))
    (st : UpState) : List String → UpState
  | [] => st
  | hash :: rest =>
    match alGet hash replay_map with
    | none => uploadHashes env replay_map st rest
    | some (ri, _, _) =>
      let calls' := st.calls ++ [NetworkCall.upload ri.path]
      match env.upload ri.path with
      | .ok _ =>
        let tracked : TrackedReplay :=
          { hash := hash, filename := ri.filename, filesize := ri.filesize,
            uploaded_at := env.now, filepath := ri.path }
        uploadHashes env replay_map
          { st with
            calls := calls',
            tracker := st.tracker.add_replay tracked,
            count := st.count + 1 } rest
      | .error e =>
        { st with
          calls := calls',
          err := some ("Failed to upload " ++ ri.filename ++ ": " ++ e) }

/-- The group loop of the manager (upload_manager.rs:437). -/
def uploadGroups (env : ScanEnv)
    (replay_map : List (String × (ReplayFileInfo × String × String)))
    (st : UpState) : List ReplayGroup → UpState
  | [] => st
  | g :: rest =>
    let st' := uploadHashes env replay_map st g.hashes
    match st'.err with
    | some _ => st'
    | none => uploadGroups env replay_map st' rest

/-- What a `scan_and_upload` run produced: its return value, the
network calls it made in order, and the tracker it left behind. -/
structure ScanOutcome where
  result : Except String Nat
  calls : List NetworkCall
  tracker : ReplayTracker
  deriving Repr

/-- `UploadManager::scan_and_upload` (upload_manager.rs:231).  Step 0
fetches `/api/settings` (API failure degrades to an empty name list);
step 1 scans the folder and keeps the newest `2 × limit`; an empty scan
returns 0 at once; step 1.5 falls back to inference when the settings
gave no names; step 2 filters and hashes; step 3 is the batched server
hash check; step 4 groups and uploads sequentially, aborting on the
first failure. -/
def scan_and_upload (env : ScanEnv) (limit : Nat) (tracker0 : ReplayTracker) :
    ScanOutcome :=
  let calls0 := [NetworkCall.settingsFetch]
  let player_names :=
    match env.settings with
    | .ok s => s.confirmed_player_names ++ s.possible_player_names.map fun e => e.1
    | .error _ => []
  match env.scan with
  | .error e => { result := .error e, calls := calls0, tracker := tracker0 }
  | .ok all_replays =>
    let recent := all_replays.take (limit * 2)
    if recent.isEmpty then
      { result := .ok 0, calls := calls0, tracker := tracker0 }
    else
      let player_names :=
        if player_names.isEmpty then
          detect_user_player_names (collectPlayerData env recent)
        else player_names
      let fh := filterAndHash env tracker0 player_names recent
      if fh.1.isEmpty then
        { result := .ok 0, calls := calls0, tracker := tracker0 }
      else
        let calls1 := calls0 ++ [NetworkCall.hashCheck]
        match env.check_hashes fh.1 with
        | .error e => { result := .error e, calls := calls1, tracker := tracker0 }
        | .ok cr =>
          let to_upload := cr.new_hashes.take limit
          let groups := group_replays_by_type_and_player to_upload fh.2
          let final := uploadGroups env fh.2
            { calls := calls1, tracker := tracker0, count := 0, err := none } groups
          { result := match final.err with
              | some e => .error e
              | none => .ok final.count
            calls := final.calls
            tracker := final.tracker }

/-! ## Shared lemmas -/

theorem alGet_alInsert_self [BEq κ] [LawfulBEq κ] (k : κ) (v : α)
    (m : List (κ × α)) : alGet k (alInsert k v m) = some v := by
  induction m with
  | nil => simp [alInsert, alGet]
  | cons e t ih =>
    obtain ⟨k', v'⟩ := e
    by_cases h : k' = k
    · subst h; simp [alInsert, alGet]
    · simp only [alInsert, alGet]
      rw [if_neg (by simpa using h)]
      simp only [alGet]
      rw [if_neg (by simpa using h)]
      exact ih

theorem alContains_alInsert_self [BEq κ] [LawfulBEq κ] (k : κ) (v : α)
    (m : List (κ × α)) : alContains k (alInsert k v m) = true := by
  induction m with
  | nil => simp [alInsert, alContains]
  | cons e t ih =>
    obtain ⟨k', v'⟩ := e
    by_cases h : k' = k
    · subst h; simp [alInsert, alContains]
    · simp only [alInsert, alContains]
      rw [if_neg (by simpa using h)]
      simp only [alContains, List.any_cons] at ih ⊢
      rw [ih]
      simp

theorem length_alInsert_of_not_contains [BEq κ] [LawfulBEq κ] (k : κ) (v : α)
    (m : List (κ × α)) (h : alContains k m = false) :
    (alInsert k v m).length = m.length + 1 := by
  induction m with
  | nil => simp [alInsert]
  | cons e t ih =>
    obtain ⟨k', v'⟩ := e
    simp only [alContains, List.any_cons, Bool.or_eq_false_iff] at h
    simp only [alInsert]
    rw [if_neg (by simpa using h.1)]
    simp [ih h.2]

/-! ## Claim theorems -/

/-- C7.  For every tracker state, `clear()` empties the replay map and
sets `total_uploaded` to zero while leaving `manifest_version`
unchanged. -/
theorem clear_preserves_manifest_version (t : ReplayTracker) :
    t.clear.replays = [] ∧ t.clear.total_uploaded = 0 ∧
      t.clear.manifest_version = t.manifest_version :=
  ⟨rfl, rfl, rfl⟩

/-- C6.  The invariant `total_uploaded = |replays|` holds for `new` and
is preserved by `add_replay` and `clear`; and adding the same replay
twice from a state where its hash is untracked leaves exactly that
entry at the hash and raises `total_uploaded` by exactly one (the
second add is a no-op). -/
theorem tracker_invariant_and_add_idempotent :
    trackerInv ReplayTracker.new ∧
    (∀ (t : ReplayTracker) (x : TrackedReplay),
      trackerInv t → trackerInv (t.add_replay x)) ∧
    (∀ t : ReplayTracker, trackerInv t.clear) ∧
    (∀ (t : ReplayTracker) (x : TrackedReplay),
      trackerInv t → t.is_uploaded x.hash = false →
        ((t.add_replay x).add_replay x).get_by_hash x.hash = some x ∧
        ((t.add_replay x).add_replay x).total_uploaded = t.total_uploaded + 1) := by
  refine ⟨rfl, ?_, fun t => rfl, ?_⟩
  · intro t x hinv
    unfold ReplayTracker.add_replay
    split
    · exact hinv
    · rfl
  · intro t x hinv hnew
    unfold ReplayTracker.is_uploaded at hnew
    have hadd1 : t.add_replay x =
        { t with replays := alInsert x.hash x t.replays
                 total_uploaded := (alInsert x.hash x t.replays).length } := by
      unfold ReplayTracker.add_replay
      rw [if_neg (by simp [hnew])]
    have hcontains : alContains x.hash (t.add_replay x).replays = true := by
      rw [hadd1]; exact alContains_alInsert_self x.hash x t.replays
    have addNoop : ∀ (s : ReplayTracker) (y : TrackedReplay),
        alContains y.hash s.replays = true → s.add_replay y = s := by
      intro s y h
      unfold ReplayTracker.add_replay
      rw [if_pos h]
    have hadd2 : (t.add_replay x).add_replay x = t.add_replay x :=
      addNoop (t.add_replay x) x hcontains
    rw [hadd2]
    constructor
    · unfold ReplayTracker.get_by_hash
      rw [hadd1]
      exact alGet_alInsert_self x.hash x t.replays
    · rw [hadd1]
      simp only
      rw [length_alInsert_of_not_contains x.hash x t.replays hnew, hinv]

/-- Witness for the hypotheses of C6 at a concrete tracker. -/
theorem tracker_invariant_and_add_idempotent_witness :
    ((ReplayTracker.new.add_replay ⟨"h1", "a.SC2Replay", 10, 7, "/r/a"⟩).add_replay
        ⟨"h1", "a.SC2Replay", 10, 7, "/r/a"⟩).get_by_hash "h1" =
      some ⟨"h1", "a.SC2Replay", 10, 7, "/r/a"⟩ ∧
    ((ReplayTracker.new.add_replay ⟨"h1", "a.SC2Replay", 10, 7, "/r/a"⟩).add_replay
        ⟨"h1", "a.SC2Replay", 10, 7, "/r/a"⟩).total_uploaded =
      ReplayTracker.new.total_uploaded + 1 :=
  tracker_invariant_and_add_idempotent.2.2.2 ReplayTracker.new
    ⟨"h1", "a.SC2Replay", 10, 7, "/r/a"⟩ rfl rfl

/-- C8.  Deserializing `manifest_version` accepts both persisted
shapes: a JSON string passes through unchanged, any JSON integer
(signed or unsigned, zero or non-zero) normalizes to `""`, and a
missing field defaults to `""`; the other document fields load
unchanged alongside. -/
theorem deserialize_manifest_version_shapes :
    (∀ (r : List (String × TrackedReplay)) (n : Nat) (s : String),
      loadTrackerDoc ⟨r, n, some (.jstr s)⟩ = .ok ⟨r, n, s⟩) ∧
    (∀ (r : List (String × TrackedReplay)) (n : Nat) (i : Int),
      loadTrackerDoc ⟨r, n, some (.jint i)⟩ = .ok ⟨r, n, ""⟩) ∧
    (∀ (r : List (String × TrackedReplay)) (n : Nat),
      loadTrackerDoc ⟨r, n, none⟩ = .ok ⟨r, n, ""⟩) :=
  ⟨fun _ _ _ => rfl, fun _ _ _ => rfl, fun _ _ => rfl⟩

/-- C10.  Loading a parseable tracker document takes `total_uploaded`
(and the replay map) verbatim, so a document whose counter disagrees
with its map size loads into a state violating the invariant; the
invariant is re-established by `clear`, or by the next `add_replay`
that actually inserts. -/
theorem load_from_path_total_uploaded_verbatim :
    (∀ (doc : TrackerDoc) (t : ReplayTracker), loadTrackerDoc doc = .ok t →
      t.total_uploaded = doc.total_uploaded ∧ t.replays = doc.replays) ∧
    (∃ (doc : TrackerDoc) (t : ReplayTracker),
      loadTrackerDoc doc = .ok t ∧ ¬ trackerInv t) ∧
    (∀ (doc : TrackerDoc) (t : ReplayTracker) (x : TrackedReplay),
      loadTrackerDoc doc = .ok t → t.is_uploaded x.hash = false →
        trackerInv (t.add_replay x)) ∧
    (∀ (doc : TrackerDoc) (t : ReplayTracker), loadTrackerDoc doc = .ok t →
      trackerInv t.clear) := by
  have hload : ∀ (doc : TrackerDoc) (t : ReplayTracker), loadTrackerDoc doc = .ok t →
      t.total_uploaded = doc.total_uploaded ∧ t.replays = doc.replays := by
    intro doc t h
    unfold loadTrackerDoc parseManifestField at h
    rcases doc with ⟨r, n, raw⟩
    rcases raw with _ | v
    · simp only [Except.bind, Except.pure] at h
      cases h
      exact ⟨rfl, rfl⟩
    · rcases v with s | i | _ <;>
        simp only [deserialize_manifest_version, Except.bind, Except.pure] at h <;>
        first
          | (cases h; exact ⟨rfl, rfl⟩)
          | cases h
  refine ⟨hload, ⟨⟨[], 5, none⟩, ⟨[], 5, ""⟩, rfl, by simp [trackerInv]⟩, ?_, ?_⟩
  · intro doc t x _ hnew
    unfold ReplayTracker.is_uploaded at hnew
    unfold ReplayTracker.add_replay
    rw [if_neg (by simp [hnew])]
    rfl
  · intro doc t _
    rfl

/-- Witness for the hypotheses of C10 at a concrete document. -/
theorem load_from_path_total_uploaded_verbatim_witness :
    trackerInv ((ReplayTracker.mk [] 5 "").add_replay ⟨"h1", "a", 1, 0, "p"⟩) :=
  load_from_path_total_uploaded_verbatim.2.2.1 ⟨[], 5, none⟩ ⟨[], 5, ""⟩
    ⟨"h1", "a", 1, 0, "p"⟩ rfl rfl

/-! ### C3: folder scan extension filter -/

theorem mem_insDesc (k : α → Nat) (x a : α) (l : List α) :
    a ∈ insDesc k x l ↔ a = x ∨ a ∈ l := by
  induction l with
  | nil => simp [insDesc]
  | cons y ys ih =>
    simp only [insDesc]
    split
    · simp [or_comm, or_assoc, or_left_comm]
    · simp only [List.mem_cons, ih]
      tauto

theorem mem_sortByKeyDesc (k : α → Nat) (a : α) (l : List α) :
    a ∈ sortByKeyDesc k l ↔ a ∈ l := by
  have general : ∀ (l acc : List α),
      a ∈ l.foldl (fun acc x => insDesc k x acc) acc ↔ a ∈ acc ∨ a ∈ l := by
    intro l
    induction l with
    | nil => simp
    | cons x xs ih =>
      intro acc
      simp only [List.foldl_cons, ih, mem_insDesc, List.mem_cons]
      tauto
  simpa using general l []

/-- C3, counterexample.  `scan_replay_folder` compares the extension
with an exact `OsStr` equality, so the file `game.sc2replay` — whose
extension matches `.SC2Replay` case-insensitively — is NOT retained by
the folder scan: the claimed "if and only if … case-insensitively"
fails on it. -/
theorem scan_lowercase_extension_counterexample :
    pathExtension "game.sc2replay" = some "sc2replay" ∧
    strEqIgnoreAsciiCase "sc2replay" "SC2Replay" = true ∧
    scanRetains ⟨"/r/game.sc2replay", "game.sc2replay", true, 10, 5⟩ = false ∧
    scan_replay_folder [⟨"/r/game.sc2replay", "game.sc2replay", true, 10, 5⟩] = [] := by
  decide

/-- C3, amended.  A file appears in the result of the folder scan iff it is
a directory entry that is a file whose extension is EXACTLY
`SC2Replay`, case-sensitively (the scan then orders by modified time,
which does not change membership). -/
theorem scan_replay_folder_retention_amended (entries : List DirEntry)
    (r : ReplayFileInfo) :
    r ∈ scan_replay_folder entries ↔
      ∃ e ∈ entries, e.is_file = true ∧ pathExtension e.filename = some "SC2Replay" ∧
        r = ⟨e.path, e.filename, e.filesize, e.modified_time⟩ := by
  unfold scan_replay_folder
  rw [mem_sortByKeyDesc]
  simp only [List.mem_map, List.mem_filter, scanRetains, Bool.and_eq_true, beq_iff_eq]
  constructor
  · rintro ⟨e, ⟨he, hf, hext⟩, rfl⟩
    exact ⟨e, he, hf, hext, rfl⟩
  · rintro ⟨e, he, hf, hext, rfl⟩
    exact ⟨e, ⟨he, hf, hext⟩, rfl⟩

/-! ### C4: game-type classification -/

/-- C4.  With the human total derived from the team sizes (as at the
call site in `get_game_type`), `classify_game_type` is exactly the pure
function given by the seven ordered steps of the spec, for every input
tuple. -/
theorem classify_game_type_matches_spec (team_sizes : List Nat)
    (observers ai_count : Nat) (amm competitive practice : Bool) :
    classify_game_type team_sizes team_sizes.sum observers ai_count
        amm competitive practice =
      spec_classify team_sizes observers ai_count amm competitive practice := by
  have h11 : (team_sizes.length = 2 ∧ team_sizes.getD 0 0 = 1 ∧
      team_sizes.getD 1 0 = 1) ↔ team_sizes = [1, 1] := by
    rcases team_sizes with _ | ⟨a, _ | ⟨b, _ | ⟨c, t⟩⟩⟩ <;> simp [List.getD]
  have h22 : (team_sizes.length = 2 ∧ team_sizes.getD 0 0 = 2 ∧
      team_sizes.getD 1 0 = 2) ↔ team_sizes = [2, 2] := by
    rcases team_sizes with _ | ⟨a, _ | ⟨b, _ | ⟨c, t⟩⟩⟩ <;> simp [List.getD]
  have h1ai : (team_sizes.length = 1 ∧ team_sizes.getD 0 0 = 1 ∧ ai_count > 0) ↔
      (team_sizes = [1] ∧ ai_count > 0) := by
    rcases team_sizes with _ | ⟨a, _ | ⟨b, t⟩⟩ <;> simp [List.getD]
  simp only [classify_game_type, spec_classify, h11, h22, h1ai]
  cases amm <;> cases competitive <;> simp

/-! ### C2: player identity inference -/

theorem candidateLoop_spec (d : PlayerStats) :
    ∀ (l pre : List PlayerStats),
      candidateLoop pre l =
        ((List.range l.length).filter fun i =>
            (l.getD i d).frequency > 1 &&
              passesCoOccurrence (l.getD i d) (pre ++ l.take i)).map
          fun i => (l.getD i d).name
  | [], pre => by simp [candidateLoop]
  | x :: t, pre => by
    have ih := candidateLoop_spec d t (pre ++ [x])
    have hfun2 : ((fun i => decide (((x :: t).getD i d).frequency > 1) &&
          passesCoOccurrence ((x :: t).getD i d) (pre ++ (x :: t).take i)) ∘ Nat.succ) =
        fun i => decide ((t.getD i d).frequency > 1) &&
          passesCoOccurrence (t.getD i d) ((pre ++ [x]) ++ t.take i) := by
      funext i
      exact congrArg
        (fun lst => decide ((t.getD i d).frequency > 1) &&
          passesCoOccurrence (t.getD i d) lst)
        (List.append_cons pre x (t.take i))
    simp only [candidateLoop]
    rw [ih]
    conv_rhs => rw [List.length_cons, List.range_succ_eq_map, List.filter_cons,
      List.filter_map, hfun2]
    rw [apply_ite (List.map fun i => ((x :: t).getD i d).name)]
    simp only [List.map_cons, List.map_map, List.getD_cons_zero, List.take_zero,
      List.append_nil]
    have hfun1 : ((fun i => (((x :: t).getD i d).name)) ∘ Nat.succ) =
        fun i => (t.getD i d).name := by
      funext i; rfl
    rw [hfun1]

/-- Two replays in which the same two active players always face each
other: both end with frequency 2 and mutual co-occurrence count 2. -/
def tieReplays : List (String × List (String × Bool)) :=
  [("r1", [("Lotus", false), ("Partner", false)]),
   ("r2", [("Lotus", false), ("Partner", false)])]

/-- C2, counterexample.  On `tieReplays` the code emits only the
first-sorted of the two equal-frequency names: the second is suppressed
by its co-occurrence with an EQUAL-frequency name (the loop checks
every earlier entry of the sorted list, not only strictly-higher
frequencies), while the rule of the claim — formalized by
`claim_detect_user_player_names` — emits both. -/
theorem detect_user_player_names_counterexample :
    detect_user_player_names tieReplays = ["Lotus"] ∧
    claim_detect_user_player_names tieReplays = ["Lotus", "Partner"] ∧
    detect_user_player_names tieReplays ≠ claim_detect_user_player_names tieReplays := by
  decide

/-- C2, amended.  The inference emits, in the order of the
frequency-descending sorted list (ties keep map order, modelled as
first-insertion order), exactly those non-AI names whose frequency
exceeds one and whose co-occurrence rate with EVERY name earlier in
that sorted list — equal-frequency names included — is at most one
half. -/
theorem detect_user_player_names_amended
    (replays : List (String × List (String × Bool))) :
    detect_user_player_names replays =
      ((List.range (sortedNonAI replays).length).filter fun i =>
          ((sortedNonAI replays).getD i ⟨"", 0, []⟩).frequency > 1 &&
            passesCoOccurrence ((sortedNonAI replays).getD i ⟨"", 0, []⟩)
              ((sortedNonAI replays).take i)).map
        fun i => ((sortedNonAI replays).getD i ⟨"", 0, []⟩).name := by
  unfold detect_user_player_names
  split
  · rename_i h
    have hnil : replays = [] := by
      cases replays with
      | nil => rfl
      | cons a t => simp [List.isEmpty] at h
    subst hnil
    simp [sortedNonAI, sortByKeyDesc]
  · rw [candidateLoop_spec ⟨"", 0, []⟩ (sortedNonAI replays) []]
    simp only [List.nil_append]

/-! ### C1: watcher exactly-once delivery -/

/-- A replay path that only the polling fallback discovers (the native
watcher saw no event for it). -/
def pollOnlyPath : String := "Accounts/1-S2-1-1/Replays/Multiplayer/game.SC2Replay"

/-- C1, evaluated at the failing input.  A recent replay file found
only by the polling fallback is inserted into `processed_files` by the
poll loop itself before being sent; the event processor then finds the
path already processed and skips it, so the user callback fires ZERO
times — while the same single discovery through the native watcher
(which does not pre-insert) fires it exactly once.  The claimed
"exactly one invocation … via the polling fallback" fails on the
code. -/
theorem watcher_poll_only_file_never_reaches_callback :
    (pollFound (fun _ => true) WatcherState.init pollOnlyPath).channel
      = [pollOnlyPath] ∧
    (drainChannel (fun _ => true)
        (pollFound (fun _ => true) WatcherState.init pollOnlyPath)).callbacks = [] ∧
    (drainChannel (fun _ => true)
        (nativeEvent WatcherState.init pollOnlyPath)).callbacks = [pollOnlyPath] := by
  decide

/-! ### C5: duplicate upload errors treated as success -/

/-- C5.  When the server answers an upload with a duplicate error
(HTTP 409 / `REPLAY_DUPLICATE` / "already been uploaded"), the executor
surfaces no error, records the replay in the tracker, raises the
tracker's `total_uploaded` by one, and the hash loop continues with the
remaining uploads exactly as after a plain success. -/
theorem upload_duplicate_treated_as_success
    (env : ExecEnv) (replay_map : List (String × PreparedReplay))
    (st : ExecState) (p : PreparedReplay) (rest : List String) (e : String)
    (hmap : alGet p.hash replay_map = some p)
    (hup : env.upload p.file_info.path (extract_region_from_path p.file_info.path)
      = .error e)
    (hdup : is_duplicate_error e = true)
    (hnew : st.tracker.is_uploaded p.hash = false)
    (hinv : trackerInv st.tracker) :
    let st1 : ExecState :=
      { st with current_upload := some (.Uploading p.file_info.filename) }
    let stOk := handle_upload_success env.now p p.hash st1
    upload_single_replay env p p.hash st = (stOk, none) ∧
    stOk.tracker.is_uploaded p.hash = true ∧
    stOk.tracker.total_uploaded = st.tracker.total_uploaded + 1 ∧
    execHashes env replay_map st (p.hash :: rest) =
      execHashes env replay_map
        { stOk with uploaded_count := stOk.uploaded_count + 1 } rest := by
  intro st1 stOk
  unfold ReplayTracker.is_uploaded at hnew
  have tracked : TrackedReplay :=
    { hash := p.hash, filename := p.file_info.filename,
      filesize := p.file_info.filesize, uploaded_at := env.now,
      filepath := p.file_info.path }
  have h1 : upload_single_replay env p p.hash st = (stOk, none) := by
    simp only [upload_single_replay, hup, hdup, if_true]
  have htr : stOk.tracker = st.tracker.add_replay
      { hash := p.hash, filename := p.file_info.filename,
        filesize := p.file_info.filesize, uploaded_at := env.now,
        filepath := p.file_info.path } := rfl
  have hadd : st.tracker.add_replay
      { hash := p.hash, filename := p.file_info.filename,
        filesize := p.file_info.filesize, uploaded_at := env.now,
        filepath := p.file_info.path } =
      { st.tracker with
        replays := alInsert p.hash
          { hash := p.hash, filename := p.file_info.filename,
            filesize := p.file_info.filesize, uploaded_at := env.now,
            filepath := p.file_info.path } st.tracker.replays
        total_uploaded := (alInsert p.hash
          { hash := p.hash, filename := p.file_info.filename,
            filesize := p.file_info.filesize, uploaded_at := env.now,
            filepath := p.file_info.path } st.tracker.replays).length } := by
    unfold ReplayTracker.add_replay
    rw [if_neg (by simp [hnew])]
  refine ⟨h1, ?_, ?_, ?_⟩
  · unfold ReplayTracker.is_uploaded
    rw [htr, hadd]
    exact alContains_alInsert_self _ _ _
  · rw [htr, hadd]
    simp only
    rw [length_alInsert_of_not_contains _ _ _ hnew, hinv]
  · show execHashes env replay_map st (p.hash :: rest) = _
    simp only [execHashes, hmap, h1]

/-- A server that always answers with an HTTP 409 duplicate error. -/
def dupEnv : ExecEnv := { upload := fun _ _ => .error "HTTP 409 Conflict", now := 42 }

/-- A prepared replay for the witness scenario. -/
def dupPrep : PreparedReplay :=
  { hash := "h7"
    file_info := { path := "/r/1-S2-1-1/a.SC2Replay", filename := "a.SC2Replay",
                   filesize := 9, modified_time := 3 }
    game_type := "1v1-ladder"
    player_name := "Lotus" }

/-- An executor state with a fresh tracker. -/
def dupState : ExecState :=
  { tracker := ReplayTracker.new, total_uploaded := 0, pending_count := 1,
    current_upload := none, uploaded_count := 0 }

/-- Witness for the hypotheses of C5 at a concrete duplicate response. -/
theorem upload_duplicate_treated_as_success_witness :
    (handle_upload_success dupEnv.now dupPrep dupPrep.hash
        { dupState with
          current_upload :=
            some (.Uploading dupPrep.file_info.filename) }).tracker.total_uploaded
      = dupState.tracker.total_uploaded + 1 :=
  (upload_duplicate_treated_as_success dupEnv [("h7", dupPrep)] dupState dupPrep
      [] "HTTP 409 Conflict" (by decide) rfl (by decide) rfl rfl).2.2.1

/-! ### C9: empty scan still fetches settings -/

/-- A run in which the configured folder scan finds no replay files;
the stages after the early return never consult their environment. -/
def emptyScanEnv : ScanEnv :=
  { settings := .ok { confirmed_player_names := [], possible_player_names := [] }
    scan := .ok []
    game_type_of := fun _ => .error "unused"
    players_of := fun _ => .error "unused"
    hash_of := fun _ => ""
    check_hashes := fun _ => .error "unused"
    upload := fun _ => .error "unused"
    now := 0 }

/-- C9, counterexample.  With no replay files found, `scan_and_upload`
returns 0 — but the network trace is NOT empty: the `/api/settings`
fetch (step 0) precedes the folder scan, so one network call is always
issued, refuting "performs no network calls (neither the settings
fetch …)". -/
theorem scan_and_upload_empty_counterexample :
    (scan_and_upload emptyScanEnv 10 ReplayTracker.new).result = .ok 0 ∧
    (scan_and_upload emptyScanEnv 10 ReplayTracker.new).calls =
      [NetworkCall.settingsFetch] ∧
    (scan_and_upload emptyScanEnv 10 ReplayTracker.new).calls ≠ [] := by
  refine ⟨rfl, rfl, by decide⟩

/-- C9, amended.  Whenever the folder scan finds no replay files,
`scan_and_upload` returns 0, leaves the tracker untouched, and issues
exactly one network call — the settings fetch; in particular neither
the hash check nor any upload request is made. -/
theorem scan_and_upload_empty_amended (env : ScanEnv) (limit : Nat)
    (t : ReplayTracker) (h : env.scan = .ok []) :
    (scan_and_upload env limit t).result = .ok 0 ∧
    (scan_and_upload env limit t).calls = [NetworkCall.settingsFetch] ∧
    (scan_and_upload env limit t).tracker = t := by
  unfold scan_and_upload
  rw [h]
  simp

/-- Witness for the amended theorem of C9 at a concrete environment. -/
theorem scan_and_upload_empty_amended_witness :
    (scan_and_upload emptyScanEnv 10 ReplayTracker.new).result = .ok 0 ∧
    (scan_and_upload emptyScanEnv 10 ReplayTracker.new).calls =
      [NetworkCall.settingsFetch] ∧
    (scan_and_upload emptyScanEnv 10 ReplayTracker.new).tracker = ReplayTracker.new :=
  scan_and_upload_empty_amended emptyScanEnv 10 ReplayTracker.new rfl

end LadderLegends
